import Mathlib

/-!
Verification development for the Quran Khuwani tracker.

The definitions below are a shallow embedding of the server of the
repository: the drizzle schema (`shared/schema.ts`), the storage layer
(`server/storage.ts`), the route handlers (`server/routes.ts`) and the
progress projections of the two client pages.  The database is modelled
as an explicit `State` record holding the three tables as lists; the
`unique_claim` constraint and the unique slug / email columns are
modelled inside the storage operations, which fail (return `none`)
exactly where the real insert raises a conflict.  JavaScript numbers
that the zod schemas force to be integers are modelled as `Int`;
strings are Lean strings (JS `.trim()` and `\s` are modelled over the
ASCII whitespace characters).
-/

/-- A row of the `organizers` table (timestamps omitted: no operation
reads them). -/
structure Organizer where
  id : Nat
  email : String
  passwordHash : String
deriving DecidableEq

/-- A row of the `khuwanies` table. `numQurans` is the quran-instance
count (`integer ... default(1)`). -/
structure Khuwani where
  id : Nat
  organizerId : Nat
  slug : String
  marhoomName : String
  numQurans : Nat
deriving DecidableEq

/-- A row of the `claims` table. The serial `id` and `claimedAt` are
omitted: the `unique_claim` constraint and every operation use only
these four columns. -/
structure Claim where
  khuwaniId : Nat
  quranNumber : Int
  siparaNumber : Int
  participantName : String
deriving DecidableEq

/-- The database: the three tables, plus the serial-id counters of the
two tables whose fresh ids matter. -/
structure State where
  organizers : List Organizer
  khuwanies : List Khuwani
  claims : List Claim
  nextOrganizerId : Nat
  nextKhuwaniId : Nat
deriving DecidableEq

/-- storage.getOrganizerByEmail: `select ... where eq(email) limit 1`. -/
def getOrganizerByEmail (s : State) (email : String) : Option Organizer :=
  s.organizers.find? (fun o => o.email == email)

/-- storage.getKhuwaniById. -/
def getKhuwaniById (s : State) (id : Nat) : Option Khuwani :=
  s.khuwanies.find? (fun k => k.id == id)

/-- storage.getKhuwaniBySlug. -/
def getKhuwaniBySlug (s : State) (slug : String) : Option Khuwani :=
  s.khuwanies.find? (fun k => k.slug == slug)

/-- storage.slugExists. -/
def slugExists (s : State) (slug : String) : Bool :=
  (getKhuwaniBySlug s slug).isSome

/-- The three columns of the `unique_claim` constraint. -/
def claimMatchesSlot (khuwaniId : Nat) (q n : Int) (c : Claim) : Bool :=
  c.khuwaniId == khuwaniId && c.quranNumber == q && c.siparaNumber == n

/-- Whether some row already occupies the (khuwani, quran, sipara) slot. -/
def tripleTaken (s : State) (khuwaniId : Nat) (q n : Int) : Bool :=
  s.claims.any (claimMatchesSlot khuwaniId q n)

/-- storage.createClaim: INSERT under the `unique_claim` uniqueness
constraint. `none` models the postgres 23505 unique-violation error the
claim route catches. -/
def createClaim (s : State) (c : Claim) : Option State :=
  if tripleTaken s c.khuwaniId c.quranNumber c.siparaNumber then none
  else some { s with claims := c :: s.claims }

/-- The four-column match used by storage.deleteClaim (string equality on
the name, hence case-sensitive). -/
def claimMatchesAll (khuwaniId : Nat) (q n : Int) (name : String) (c : Claim) : Bool :=
  c.khuwaniId == khuwaniId && c.quranNumber == q && c.siparaNumber == n &&
    c.participantName == name

/-- storage.deleteClaim: DELETE of every row matching all four columns,
returning whether any row was removed (`result.length > 0`). -/
def deleteClaim (s : State) (khuwaniId : Nat) (q n : Int) (name : String) : State × Bool :=
  ({ s with claims := s.claims.filter (fun c => !(claimMatchesAll khuwaniId q n name c)) },
   s.claims.any (claimMatchesAll khuwaniId q n name))

/-- storage.deleteAllClaimsForKhuwani. -/
def deleteAllClaimsForKhuwani (s : State) (khuwaniId : Nat) : State :=
  { s with claims := s.claims.filter (fun c => !(c.khuwaniId == khuwaniId)) }

/-- storage.incrementQurans: `update ... set numQurans = numQurans + 1
where id = khuwaniId`, a single atomic read-modify-write. -/
def incrementQurans (s : State) (id : Nat) : State :=
  { s with khuwanies :=
      s.khuwanies.map (fun k => if k.id == id then { k with numQurans := k.numQurans + 1 } else k) }

/-- storage.deleteKhuwani: delete the claims of the khuwani, then the
khuwani row. -/
def deleteKhuwani (s : State) (id : Nat) : State :=
  { s with claims := s.claims.filter (fun c => !(c.khuwaniId == id)),
           khuwanies := s.khuwanies.filter (fun k => !(k.id == id)) }

/-- storage.createOrganizer guarded by the register route's duplicate
check and the unique email column: `none` when the email exists. -/
def createOrganizer (s : State) (email passwordHash : String) : Option State :=
  if (getOrganizerByEmail s email).isSome then none
  else some { s with
    organizers := (⟨s.nextOrganizerId, email, passwordHash⟩ : Organizer) :: s.organizers,
    nextOrganizerId := s.nextOrganizerId + 1 }

/-- storage.createKhuwani under the unique slug column: a new session
always starts with `numQurans = 1`. -/
def createKhuwani (s : State) (organizerId : Nat) (slug marhoomName : String) : Option State :=
  if slugExists s slug then none
  else some { s with
    khuwanies := (⟨s.nextKhuwaniId, organizerId, slug, marhoomName, 1⟩ : Khuwani) :: s.khuwanies,
    nextKhuwaniId := s.nextKhuwaniId + 1 }

/-- JS `\s` restricted to the ASCII range: space, tab, LF, VT, FF, CR. -/
def isJsWS (c : Char) : Bool :=
  c == ' ' || c == '\t' || c == '\n' || c == '\x0b' || c == '\x0c' || c == '\r'

/-- JS `String.prototype.trim()`: whitespace stripped from both ends. -/
def jsTrim (s : String) : String :=
  String.mk (((s.data.dropWhile isJsWS).reverse.dropWhile isJsWS).reverse)

/-- The parsed body of the claim/unclaim routes. -/
structure ClaimBody where
  quranNumber : Int
  siparaNumber : Int
  participantName : String
deriving DecidableEq

/-- routes.ts claimBodySchema: `quranNumber` integer ≥ 1, `siparaNumber`
integer in 1..30, `participantName` of length 1..100 — the length checks
run on the raw string, and the final zod `.trim()` transform is applied
only afterwards, to the accepted value. -/
def parseClaimBody (q n : Int) (name : String) : Option ClaimBody :=
  if 1 ≤ q ∧ 1 ≤ n ∧ n ≤ 30 ∧ 1 ≤ name.length ∧ name.length ≤ 100 then
    some ⟨q, n, jsTrim name⟩
  else none

/-- Outcome of POST /api/k/:slug/claim. -/
inductive ClaimResult where
  | notFound
  | validationFailure
  | invalidSlot
  | slotTaken
  | success (c : Claim)
deriving DecidableEq

/-- POST /api/k/:slug/claim: resolve the slug (404 if absent), parse the
body (400), reject `quranNumber > numQurans` (400), then attempt the
insert; a unique-constraint conflict becomes the recoverable 409
`slotTaken` outcome. There is no application-level already-claimed
check: the only test of occupancy is the constraint inside
`createClaim`. -/
def claimSipara (s : State) (slug : String) (q n : Int) (name : String) : State × ClaimResult :=
  match getKhuwaniBySlug s slug with
  | none => (s, .notFound)
  | some k =>
    match parseClaimBody q n name with
    | none => (s, .validationFailure)
    | some body =>
      if (k.numQurans : Int) < body.quranNumber then (s, .invalidSlot)
      else
        match createClaim s ⟨k.id, body.quranNumber, body.siparaNumber, body.participantName⟩ with
        | none => (s, .slotTaken)
        | some s2 => (s2, .success ⟨k.id, body.quranNumber, body.siparaNumber, body.participantName⟩)

/-- Outcome of POST /api/k/:slug/unclaim. `notReleased` is the ordinary
400 "you may not have claimed it" answer, not a fault. -/
inductive ReleaseResult where
  | notFound
  | validationFailure
  | released
  | notReleased
deriving DecidableEq

/-- POST /api/k/:slug/unclaim: resolve the slug, parse the same body
schema, delete the claim matching all four fields; the boolean from
storage.deleteClaim decides between the two normal outcomes. -/
def releaseSipara (s : State) (slug : String) (q n : Int) (name : String) : State × ReleaseResult :=
  match getKhuwaniBySlug s slug with
  | none => (s, .notFound)
  | some k =>
    match parseClaimBody q n name with
    | none => (s, .validationFailure)
    | some body =>
      let r := deleteClaim s k.id body.quranNumber body.siparaNumber body.participantName
      if r.2 then (r.1, .released) else (r.1, .notReleased)

/-- Outcome of the organizer admin routes (reset / add-quran / delete):
404 unless the khuwani exists and belongs to the caller. -/
inductive AdminResult where
  | notFound
  | ok
deriving DecidableEq

/-- POST /api/organizer/khuwani/:id/add-quran (caller = the
authenticated organizer id from the session cookie). -/
def addQuranInstance (s : State) (caller id : Nat) : State × AdminResult :=
  match getKhuwaniById s id with
  | none => (s, .notFound)
  | some k =>
    if k.organizerId == caller then (incrementQurans s id, .ok) else (s, .notFound)

/-- POST /api/organizer/khuwani/:id/reset. -/
def resetClaims (s : State) (caller id : Nat) : State × AdminResult :=
  match getKhuwaniById s id with
  | none => (s, .notFound)
  | some k =>
    if k.organizerId == caller then (deleteAllClaimsForKhuwani s id, .ok) else (s, .notFound)

/-- POST /api/organizer/khuwani/:id/delete. -/
def deleteKhuwaniRoute (s : State) (caller id : Nat) : State × AdminResult :=
  match getKhuwaniById s id with
  | none => (s, .notFound)
  | some k =>
    if k.organizerId == caller then (deleteKhuwani s id, .ok) else (s, .notFound)

/-- The mutating requests of the public surface, for reachability
arguments: each constructor carries exactly the request data of one
route (the slug of a created khuwani stands for the generated one). -/
inductive Op where
  | register (email passwordHash : String)
  | createK (caller : Nat) (marhoomName slug : String)
  | addQuran (caller id : Nat)
  | reset (caller id : Nat)
  | deleteK (caller id : Nat)
  | claim (slug : String) (q n : Int) (name : String)
  | release (slug : String) (q n : Int) (name : String)

/-- The state reached after one request (failed requests leave the
database untouched, as every handler either mutates nothing or performs
its single storage write). -/
def applyOp (s : State) : Op → State
  | .register email hash => (createOrganizer s email hash).getD s
  | .createK caller name slug => (createKhuwani s caller slug name).getD s
  | .addQuran caller id => (addQuranInstance s caller id).1
  | .reset caller id => (resetClaims s caller id).1
  | .deleteK caller id => (deleteKhuwaniRoute s caller id).1
  | .claim slug q n name => (claimSipara s slug q n name).1
  | .release slug q n name => (releaseSipara s slug q n name).1

/-- The empty database the system starts from. -/
def initState : State := ⟨[], [], [], 1, 1⟩

/-- The state after a sequence of requests, from the empty database. -/
def runOps (ops : List Op) : State := ops.foldl applyOp initState

/-- Two claims occupying the same (khuwani, quran, sipara) slot. -/
def SameSlot (a b : Claim) : Prop :=
  a.khuwaniId = b.khuwaniId ∧ a.quranNumber = b.quranNumber ∧ a.siparaNumber = b.siparaNumber

instance : DecidablePred fun p : Claim × Claim => SameSlot p.1 p.2 := by
  intro p; unfold SameSlot; infer_instance

/-- The storage invariant of the `unique_claim` constraint: no two
claim rows share a slot. -/
def ClaimsUnique (s : State) : Prop :=
  s.claims.Pairwise (fun a b => ¬ SameSlot a b)

instance (s : State) : Decidable (ClaimsUnique s) := by
  unfold ClaimsUnique
  have : DecidableRel (fun a b : Claim => ¬ SameSlot a b) := by
    intro a b; unfold SameSlot; infer_instance
  infer_instance

/-- Number of claims carrying a given quran-instance number
(participant-view.tsx: `claims.filter(c => c.quranNumber === qNum).length`,
and the per-instance counts of organizer-dashboard.tsx). -/
def countClaimsForQuran (claims : List Claim) (q : Int) : Nat :=
  (claims.filter (fun c => c.quranNumber == q)).length

/-- JS Math.round for the values at hand: half-up rounding,
`⌊x + 1/2⌋`. -/
def jsRound (x : ℚ) : Int := ⌊x + 1/2⌋

/-- organizer-dashboard.tsx: `totalSiparas = numQurans * 30;
progress = totalSiparas > 0 ? claimedCount / totalSiparas * 100 : 0`. -/
def organizerProgress (numQurans : Nat) (claims : List Claim) : ℚ :=
  if 0 < numQurans * 30 then
    ((claims.length : ℚ) / ((numQurans * 30 : Nat) : ℚ)) * 100
  else 0

/-- The rendered overall percentage: `Math.round(progress)`. -/
def organizerProgressDisplay (numQurans : Nat) (claims : List Claim) : Int :=
  jsRound (organizerProgress numQurans claims)

/-- participant-view.tsx: `Math.round((claimedInQuran / 30) * 100)`. -/
def participantPercent (claims : List Claim) (activeQuran : Int) : Int :=
  jsRound (((countClaimsForQuran claims activeQuran : ℚ) / 30) * 100)

/-- ASCII lower-casing, what JS `.toLowerCase()` does on the characters
that can survive the following `[^a-z0-9\s-]` strip. -/
def jsToLower (c : Char) : Char :=
  if 'A' ≤ c ∧ c ≤ 'Z' then Char.ofNat (c.toNat + 32) else c

/-- The character class kept by `replace(/[^a-z0-9\s-]/g, "")`. -/
def isSlugAllowed (c : Char) : Bool :=
  ('a' ≤ c && c ≤ 'z') || ('0' ≤ c && c ≤ '9') || isJsWS c || c == '-'

/-- Helper for run collapsing: `inRun` records whether the previous
character belonged to the class `p`, so that only the first character
of each maximal run emits the hyphen. -/
def collapseRunsAux (p : Char → Bool) : Bool → List Char → List Char
  | _, [] => []
  | inRun, c :: rest =>
    if p c then
      if inRun then collapseRunsAux p true rest
      else '-' :: collapseRunsAux p true rest
    else c :: collapseRunsAux p false rest

/-- A global replace of every maximal run of characters of the class
`p` by a single hyphen, the effect of the `\s+` → "-" and `-+` → "-"
replaces of generateSlug. -/
def collapseRuns (p : Char → Bool) (l : List Char) : List Char :=
  collapseRunsAux p false l

/-- Is the character a hyphen (the class collapsed by the fourth
replace of generateSlug). -/
def isHyphen (c : Char) : Bool := c == '-'

/-- Removal of a hyphen standing at the head, if any. -/
def dropOneLeadingHyphen (l : List Char) : List Char :=
  match l with
  | [] => []
  | c :: rest => if c = '-' then rest else c :: rest

/-- `replace(/^-|-$/g, "")`: one hyphen removed at the very start and
one at the very end. -/
def trimEdgeHyphens (l : List Char) : List Char :=
  ((dropOneLeadingHyphen l).reverse |> dropOneLeadingHyphen).reverse

/-- The deterministic part of routes.ts generateSlug, as the code
composes it: lower-case, strip `[^a-z0-9\s-]`, `\s+` → "-", `-+` → "-",
strip one edge hyphen on each side. -/
def slugBaseChars (name : List Char) : List Char :=
  trimEdgeHyphens (collapseRuns isHyphen (collapseRuns isJsWS ((name.map jsToLower).filter isSlugAllowed)))

/-- routes.ts generateSlug, with the random suffix
(`Math.random().toString(36).substring(2, 7)`) abstracted as an input,
the random source being treated as an input of the function. -/
def generateSlug (name : String) (randomSuffix : String) : String :=
  String.mk (slugBaseChars name.data) ++ "-" ++ randomSuffix

/-- Modelled from the spec's words for the slug allocator exactly as
written: lower-case, strip characters outside `[a-z0-9 space -]`,
collapse whitespace runs to single hyphens, trim leading and trailing
hyphens, then append a hyphen and the random suffix. (No collapsing of
hyphen runs is mentioned.) -/
def specSlugClaimed (name : String) (randomSuffix : String) : String :=
  String.mk
    ((((collapseRuns isJsWS ((name.data.map jsToLower).filter isSlugAllowed)).dropWhile
        isHyphen).reverse.dropWhile isHyphen).reverse) ++ "-" ++ randomSuffix

/-- Whitespace-or-hyphen, the run class of the amended description. -/
def isJsWSOrHyphen (c : Char) : Bool := isJsWS c || c == '-'

/-- The spec's slug description amended minimally: runs made of
whitespace and hyphens collapse to a single hyphen (equivalently,
whitespace runs become hyphens and hyphen runs then collapse), then
leading and trailing hyphens are trimmed. -/
def specSlugAmended (name : String) (randomSuffix : String) : String :=
  String.mk
    ((((collapseRuns isJsWSOrHyphen ((name.data.map jsToLower).filter isSlugAllowed)).dropWhile
        isHyphen).reverse.dropWhile isHyphen).reverse) ++ "-" ++ randomSuffix

/-- Outcome of POST /api/organizer/login, as observable by the caller:
HTTP status and message, or the authenticated organizer id. -/
inductive LoginResult where
  | badRequest (message : String)
  | unauthorized (message : String)
  | loggedIn (organizerId : Nat)
deriving DecidableEq

/-- loginSchema: email format (the zod `.email()` check, abstracted as
the predicate `validEmail`) and password of at least 6 characters; the
first failing field's message is reported. -/
def parseLogin (validEmail : String → Bool) (email password : String) : Option String :=
  if !(validEmail email) then some "Please enter a valid email"
  else if password.length < 6 then some "Password must be at least 6 characters"
  else none

/-- POST /api/organizer/login: parse, look the organizer up by email,
verify the password with bcrypt.compare (abstracted as
`bcryptCompare`). Both the unknown-email and the wrong-password paths
answer 401 "Invalid email or password". -/
def login (validEmail : String → Bool) (bcryptCompare : String → String → Bool)
    (s : State) (email password : String) : LoginResult :=
  match parseLogin validEmail email password with
  | some msg => .badRequest msg
  | none =>
    match getOrganizerByEmail s email with
    | none => .unauthorized "Invalid email or password"
    | some o =>
      if bcryptCompare password o.passwordHash then .loggedIn o.id
      else .unauthorized "Invalid email or password"

/-- No two adjacent hyphens: the shape invariant of the collapsed
output that makes the single edge-hyphen strip a full trim. -/
def GoodL (l : List Char) : Prop := l.Chain' (fun a b => ¬(a = '-' ∧ b = '-'))

/-- A one-khuwani database used to instantiate the theorems. -/
def exKhuwani : Khuwani := ⟨1, 1, "test-abcde", "Test", 1⟩

/-- A database with one organizer and one fresh khuwani and no claims. -/
def exState : State := ⟨[⟨1, "a@b.com", "h"⟩], [exKhuwani], [], 2, 2⟩

/-- `exState` after Ahmed claimed sipara 5 of quran 1. -/
def exStateClaimed : State := ⟨[⟨1, "a@b.com", "h"⟩], [exKhuwani], [⟨1, 1, 5, "Ahmed"⟩], 2, 2⟩

/-- The claim set of the spec's projection example: instanceCount 2,
claims on (1,1), (1,2) and (2,1). -/
def exampleClaims : List Claim := [⟨1, 1, 1, "A"⟩, ⟨1, 1, 2, "B"⟩, ⟨1, 2, 1, "C"⟩]


/-!  Helper lemmas shared by the claim theorems. -/

theorem parseClaimBody_some (q n : Int) (name : String)
    (h1 : 1 ≤ q) (h2 : 1 ≤ n) (h3 : n ≤ 30) (h4 : 1 ≤ name.length) (h5 : name.length ≤ 100) :
    parseClaimBody q n name = some ⟨q, n, jsTrim name⟩ := by
  unfold parseClaimBody
  rw [if_pos ⟨h1, h2, h3, h4, h5⟩]

theorem parseClaimBody_some_inv (q n : Int) (name : String) (body : ClaimBody)
    (h : parseClaimBody q n name = some body) :
    (1 ≤ q ∧ 1 ≤ n ∧ n ≤ 30 ∧ 1 ≤ name.length ∧ name.length ≤ 100) ∧
      body = ⟨q, n, jsTrim name⟩ := by
  unfold parseClaimBody at h
  split at h
  · exact ⟨by assumption, (Option.some.injEq _ _ ▸ h).symm⟩
  · exact absurd h (by simp)

theorem getKhuwaniBySlug_ext (s₁ s₂ : State) (slug : String)
    (h : s₁.khuwanies = s₂.khuwanies) :
    getKhuwaniBySlug s₁ slug = getKhuwaniBySlug s₂ slug := by
  unfold getKhuwaniBySlug
  rw [h]

theorem releaseSipara_khuwanies (s : State) (slug : String) (q n : Int) (name : String) :
    (releaseSipara s slug q n name).1.khuwanies = s.khuwanies := by
  unfold releaseSipara
  cases hk : getKhuwaniBySlug s slug with
  | none => rfl
  | some k =>
    cases hp : parseClaimBody q n name with
    | none => rfl
    | some body =>
      simp only
      split <;> rfl

theorem getKhuwaniById_incrementQurans (s : State) (id : Nat) :
    getKhuwaniById (incrementQurans s id) id
      = (getKhuwaniById s id).map (fun k => { k with numQurans := k.numQurans + 1 }) := by
  unfold getKhuwaniById incrementQurans
  simp only
  induction s.khuwanies with
  | nil => rfl
  | cons k ks ih =>
    by_cases h : k.id = id
    · simp [List.find?_cons, h]
    · simp only [List.map_cons]
      rw [if_neg (by simp [h])]
      rw [List.find?_cons_of_neg _ (by simp [h]), List.find?_cons_of_neg _ (by simp [h])]
      exact ih

/-- C2: claimSipara fails NotFound when no session has the slug, fails
ValidationFailure when the sipara number is outside 1..30 (or the body
is otherwise malformed), fails InvalidSlot when the quran-instance
number exceeds the session's instance count, and in every such failure
the returned state is exactly the input state: the invalid request
never reaches storage. -/
theorem claim_failures_touch_nothing (s : State) (slug : String) (q n : Int) (name : String) :
    (getKhuwaniBySlug s slug = none → claimSipara s slug q n name = (s, .notFound)) ∧
    (∀ k, getKhuwaniBySlug s slug = some k →
      (parseClaimBody q n name = none → claimSipara s slug q n name = (s, .validationFailure)) ∧
      ((n < 1 ∨ 30 < n) → claimSipara s slug q n name = (s, .validationFailure)) ∧
      (∀ body, parseClaimBody q n name = some body → (k.numQurans : Int) < q →
        claimSipara s slug q n name = (s, .invalidSlot))) := by
  refine ⟨fun h0 => ?_, fun k hk => ⟨fun hp => ?_, fun hn => ?_, fun body hp hq => ?_⟩⟩
  · unfold claimSipara
    rw [h0]
  · unfold claimSipara
    rw [hk, hp]
  · have hp : parseClaimBody q n name = none := by
      unfold parseClaimBody
      rw [if_neg]
      rintro ⟨-, h2, h3, -⟩
      omega
    unfold claimSipara
    rw [hk, hp]
  · have hb := (parseClaimBody_some_inv q n name body hp).2
    unfold claimSipara
    rw [hk, hp, hb]
    simp only
    rw [if_pos hq]

/-- Witness for C2 at concrete inputs: an absent slug, a sipara number
31, and a quran number above the instance count, each leaving the
state untouched. -/
theorem claim_failures_touch_nothing_witness :
    claimSipara exState "missing" 1 5 "Ahmed" = (exState, .notFound) ∧
    claimSipara exState "test-abcde" 1 31 "Ahmed" = (exState, .validationFailure) ∧
    claimSipara exState "test-abcde" 2 5 "Ahmed" = (exState, .invalidSlot) := by
  refine ⟨(claim_failures_touch_nothing exState "missing" 1 5 "Ahmed").1 (by decide),
    (((claim_failures_touch_nothing exState "test-abcde" 1 31 "Ahmed").2 exKhuwani
        (by decide)).2.1 (Or.inr (by decide))),
    (((claim_failures_touch_nothing exState "test-abcde" 2 5 "Ahmed").2 exKhuwani
        (by decide)).2.2 ⟨2, 5, jsTrim "Ahmed"⟩
        (parseClaimBody_some 2 5 "Ahmed" (by decide) (by decide) (by decide) (by decide) (by decide))
        (by decide))⟩

/-- C4: addQuranInstance answers NotFound unless the khuwani exists and
is owned by the caller; otherwise it increments the instance count by
exactly one (claims untouched), and K successive calls increase the
count by exactly K. -/
theorem add_quran_instance_counts (s : State) (caller id : Nat) :
    (getKhuwaniById s id = none → addQuranInstance s caller id = (s, .notFound)) ∧
    (∀ k, getKhuwaniById s id = some k → k.organizerId ≠ caller →
        addQuranInstance s caller id = (s, .notFound)) ∧
    (∀ k, getKhuwaniById s id = some k → k.organizerId = caller →
      (addQuranInstance s caller id).2 = .ok ∧
      getKhuwaniById (addQuranInstance s caller id).1 id
          = some { k with numQurans := k.numQurans + 1 } ∧
      (addQuranInstance s caller id).1.claims = s.claims ∧
      (∀ K : Nat, getKhuwaniById ((fun st => (addQuranInstance st caller id).1)^[K] s) id
          = some { k with numQurans := k.numQurans + K })) := by
  refine ⟨fun h0 => ?_, fun k hk hne => ?_, fun k hk hown => ?_⟩
  · unfold addQuranInstance
    rw [h0]
  · unfold addQuranInstance
    rw [hk]
    simp only
    rw [if_neg (by simp [hne])]
  · have hstep : ∀ (st : State) (k' : Khuwani), getKhuwaniById st id = some k' →
        k'.organizerId = caller →
        (addQuranInstance st caller id).1 = incrementQurans st id ∧
        (addQuranInstance st caller id).2 = AdminResult.ok := by
      intro st k' hk' hown'
      unfold addQuranInstance
      rw [hk']
      simp only
      rw [if_pos (by simp [hown'])]
      exact ⟨rfl, rfl⟩
    have hres := hstep s k hk hown
    refine ⟨hres.2, ?_, ?_, ?_⟩
    · rw [hres.1, getKhuwaniById_incrementQurans, hk]
      rfl
    · rw [hres.1]
      rfl
    · intro K
      induction K with
      | zero => simpa using hk
      | succ m ih =>
        rw [Function.iterate_succ_apply']
        have h2 := hstep _ { k with numQurans := k.numQurans + m } ih hown
        rw [h2.1, getKhuwaniById_incrementQurans, ih]
        simp [Nat.add_assoc]

/-- Witness for C4: on the example state the owning organizer's call
succeeds and bumps the count to 2, three iterated calls reach 4, and a
non-owner gets NotFound. -/
theorem add_quran_instance_counts_witness :
    (addQuranInstance exState 1 1).2 = .ok ∧
    getKhuwaniById (addQuranInstance exState 1 1).1 1
        = some { exKhuwani with numQurans := 2 } ∧
    getKhuwaniById ((fun st => (addQuranInstance st 1 1).1)^[3] exState) 1
        = some { exKhuwani with numQurans := 4 } ∧
    addQuranInstance exState 2 1 = (exState, .notFound) := by
  have h := (add_quran_instance_counts exState 1 1).2.2 exKhuwani (by decide) (by decide)
  have h2 := (add_quran_instance_counts exState 2 1).2.1 exKhuwani (by decide) (by decide)
  exact ⟨h.1, h.2.1, h.2.2.2 3, h2⟩

/-- C5: for a session owned by the caller, resetClaims deletes exactly
the claims of that session — the khuwani table (hence the session's
instance count, slug and name) and the organizer table are unchanged,
no claim of the session survives, and every claim of any other session
is kept verbatim. -/
theorem reset_claims_frame (s : State) (caller id : Nat) (k : Khuwani)
    (hk : getKhuwaniById s id = some k) (hown : k.organizerId = caller) :
    (resetClaims s caller id).2 = .ok ∧
    (resetClaims s caller id).1.khuwanies = s.khuwanies ∧
    (resetClaims s caller id).1.organizers = s.organizers ∧
    (∀ c ∈ (resetClaims s caller id).1.claims, c.khuwaniId ≠ id) ∧
    (∀ c ∈ s.claims, c.khuwaniId ≠ id → c ∈ (resetClaims s caller id).1.claims) ∧
    (∀ c ∈ (resetClaims s caller id).1.claims, c ∈ s.claims) := by
  have hres : resetClaims s caller id = (deleteAllClaimsForKhuwani s id, .ok) := by
    unfold resetClaims
    rw [hk]
    simp only
    rw [if_pos (by simp [hown])]
  rw [hres]
  refine ⟨rfl, rfl, rfl, fun c hc => ?_, fun c hc hne => ?_, fun c hc => ?_⟩
  · have := (List.mem_filter.mp hc).2
    simpa using this
  · exact List.mem_filter.mpr ⟨hc, by simpa using hne⟩
  · exact (List.mem_filter.mp hc).1

/-- Witness for C5: resetting the claimed example state empties its
claims while leaving the khuwani row (count 1) in place. -/
theorem reset_claims_frame_witness :
    (resetClaims exStateClaimed 1 1).2 = .ok ∧
    (resetClaims exStateClaimed 1 1).1.khuwanies = exStateClaimed.khuwanies ∧
    (resetClaims exStateClaimed 1 1).1.claims = [] := by
  have h := reset_claims_frame exStateClaimed 1 1 exKhuwani (by decide) (by decide)
  exact ⟨h.1, h.2.1, by decide⟩

theorem any_filter_not {α : Type} (l : List α) (p : α → Bool) :
    (l.filter (fun c => !(p c))).any p = false := by
  rw [← Bool.not_eq_true]
  simp only [List.any_eq_true, List.mem_filter, Bool.not_eq_true']
  rintro ⟨c, ⟨-, hfalse⟩, htrue⟩
  rw [hfalse] at htrue
  exact Bool.false_ne_true htrue

theorem releaseSipara_unfold (s : State) (slug : String) (q n : Int) (name : String)
    (k : Khuwani) (hk : getKhuwaniBySlug s slug = some k)
    (hp : parseClaimBody q n name = some ⟨q, n, jsTrim name⟩) :
    releaseSipara s slug q n name
      = (if (deleteClaim s k.id q n (jsTrim name)).2
          then ((deleteClaim s k.id q n (jsTrim name)).1, .released)
          else ((deleteClaim s k.id q n (jsTrim name)).1, .notReleased)) := by
  unfold releaseSipara
  rw [hk, hp]

/-- C3: on an existing session with a well-formed body, releaseSipara
returns `released` exactly when some claim matches all four fields —
session, quran number, sipara number and (trimmed, case-sensitively
compared) participant name — the resulting claim table is the input
table minus precisely the matching rows, and a second identical call
returns the ordinary `notReleased` outcome, not a fault. -/
theorem release_exact_match (s : State) (slug : String) (q n : Int) (name : String) (k : Khuwani)
    (hk : getKhuwaniBySlug s slug = some k)
    (h1 : 1 ≤ q) (h2 : 1 ≤ n) (h3 : n ≤ 30) (h4 : 1 ≤ name.length) (h5 : name.length ≤ 100) :
    ((releaseSipara s slug q n name).2 = .released ↔
        ∃ c ∈ s.claims, c.khuwaniId = k.id ∧ c.quranNumber = q ∧ c.siparaNumber = n ∧
          c.participantName = jsTrim name) ∧
    (releaseSipara s slug q n name).1.claims
        = s.claims.filter (fun c => !(claimMatchesAll k.id q n (jsTrim name) c)) ∧
    (releaseSipara (releaseSipara s slug q n name).1 slug q n name).2 = .notReleased := by
  have hp := parseClaimBody_some q n name h1 h2 h3 h4 h5
  have hunf := releaseSipara_unfold s slug q n name k hk hp
  have hiff : (releaseSipara s slug q n name).2 = .released ↔
      ∃ c ∈ s.claims, c.khuwaniId = k.id ∧ c.quranNumber = q ∧ c.siparaNumber = n ∧
        c.participantName = jsTrim name := by
    rw [hunf]
    by_cases hb : (deleteClaim s k.id q n (jsTrim name)).2 = true
    · rw [if_pos hb]
      simp only [true_iff]
      have := hb
      unfold deleteClaim at this
      simp only [List.any_eq_true, claimMatchesAll, Bool.and_eq_true, beq_iff_eq] at this
      obtain ⟨c, hc, ⟨⟨e1, e2⟩, e3⟩, e4⟩ := this
      exact ⟨c, hc, e1, e2, e3, e4⟩
    · rw [if_neg hb]
      simp only [ReleaseResult.notReleased]
      constructor
      · intro he
        exact absurd he (by simp)
      · rintro ⟨c, hc, e1, e2, e3, e4⟩
        refine absurd ?_ hb
        unfold deleteClaim
        simp only [List.any_eq_true]
        exact ⟨c, hc, by simp [claimMatchesAll, e1, e2, e3, e4]⟩
  have hclaims : (releaseSipara s slug q n name).1.claims
      = s.claims.filter (fun c => !(claimMatchesAll k.id q n (jsTrim name) c)) := by
    rw [hunf]
    by_cases hb : (deleteClaim s k.id q n (jsTrim name)).2 = true
    · rw [if_pos hb]
      rfl
    · rw [if_neg hb]
      rfl
  refine ⟨hiff, hclaims, ?_⟩
  have hk2 : getKhuwaniBySlug (releaseSipara s slug q n name).1 slug = some k := by
    rw [getKhuwaniBySlug_ext _ s slug (releaseSipara_khuwanies s slug q n name)]
    exact hk
  have hany2 : (releaseSipara s slug q n name).1.claims.any
      (claimMatchesAll k.id q n (jsTrim name)) = false := by
    rw [hclaims]
    exact any_filter_not _ _
  rw [releaseSipara_unfold _ slug q n name k hk2 hp]
  rw [if_neg (by rw [show (deleteClaim (releaseSipara s slug q n name).1 k.id q n
      (jsTrim name)).2 = (releaseSipara s slug q n name).1.claims.any
      (claimMatchesAll k.id q n (jsTrim name)) from rfl, hany2]; exact Bool.false_ne_true)]

/-- Witness for C3: releasing Ahmed's claim on the example state
succeeds; the identical second call answers `notReleased`. -/
theorem release_exact_match_witness :
    (releaseSipara exStateClaimed "test-abcde" 1 5 "Ahmed").2 = .released ∧
    (releaseSipara (releaseSipara exStateClaimed "test-abcde" 1 5 "Ahmed").1
        "test-abcde" 1 5 "Ahmed").2 = .notReleased := by
  have h := release_exact_match exStateClaimed "test-abcde" 1 5 "Ahmed" exKhuwani
    (by decide) (by decide) (by decide) (by decide) (by decide) (by decide)
  exact ⟨h.1.mpr ⟨⟨1, 1, 5, "Ahmed"⟩, by decide, by decide, by decide, by decide, by decide⟩,
    h.2.2⟩

theorem claimsUnique_cons (s : State) (c : Claim)
    (hfree : tripleTaken s c.khuwaniId c.quranNumber c.siparaNumber = false)
    (h : ClaimsUnique s) :
    ClaimsUnique { s with claims := c :: s.claims } := by
  unfold ClaimsUnique at h ⊢
  refine List.Pairwise.cons (fun b hb hsame => ?_) h
  obtain ⟨e1, e2, e3⟩ := hsame
  have hmatch : claimMatchesSlot c.khuwaniId c.quranNumber c.siparaNumber b = true := by
    simp [claimMatchesSlot, e1.symm, e2.symm, e3.symm]
  have htaken : tripleTaken s c.khuwaniId c.quranNumber c.siparaNumber = true :=
    List.any_eq_true.mpr ⟨b, hb, hmatch⟩
  rw [hfree] at htaken
  exact Bool.false_ne_true htaken

theorem claimsUnique_applyOp (s : State) (op : Op) (h : ClaimsUnique s) :
    ClaimsUnique (applyOp s op) := by
  cases op with
  | register email hash =>
    simp only [applyOp]
    unfold createOrganizer
    split <;> exact h
  | createK caller name slug =>
    simp only [applyOp]
    unfold createKhuwani
    split <;> exact h
  | addQuran caller id =>
    simp only [applyOp]
    unfold addQuranInstance
    split
    · exact h
    · split <;> exact h
  | reset caller id =>
    simp only [applyOp]
    unfold resetClaims
    split
    · exact h
    · split
      · exact List.Pairwise.filter _ h
      · exact h
  | deleteK caller id =>
    simp only [applyOp]
    unfold deleteKhuwaniRoute
    split
    · exact h
    · split
      · exact List.Pairwise.filter _ h
      · exact h
  | claim slug q n name =>
    simp only [applyOp]
    unfold claimSipara
    split
    · exact h
    · split
      · exact h
      · split
        · exact h
        · split
          · exact h
          · rename_i s2 heq
            unfold createClaim at heq
            split at heq
            · exact absurd heq (by simp)
            · rename_i hfree
              injection heq with heq2
              rw [← heq2]
              refine claimsUnique_cons s _ ?_ h
              simpa using hfree
  | release slug q n name =>
    simp only [applyOp]
    unfold releaseSipara
    split
    · exact h
    · split
      · exact h
      · simp only
        split
        · exact List.Pairwise.filter _ h
        · exact List.Pairwise.filter _ h

theorem claimsUnique_foldl (ops : List Op) : ∀ s : State, ClaimsUnique s →
    ClaimsUnique (List.foldl applyOp s ops) := by
  induction ops with
  | nil => exact fun s h => h
  | cons op rest ih => exact fun s h => ih _ (claimsUnique_applyOp s op h)

/-- C1: in every state reachable by any sequence of requests from the
empty database, no two claims occupy the same (session, quran-instance,
sipara) slot; and a claimSipara attempt on a slot that already holds a
claim leaves the state unchanged and answers the recoverable SlotTaken
outcome — the occupancy test is the storage-level constraint inside
createClaim, the route itself performing no already-claimed check. -/
theorem claim_slot_uniqueness :
    (∀ ops : List Op, ClaimsUnique (runOps ops)) ∧
    (∀ (s : State) (slug : String) (q n : Int) (name : String) (k : Khuwani),
      getKhuwaniBySlug s slug = some k →
      1 ≤ q → q ≤ (k.numQurans : Int) → 1 ≤ n → n ≤ 30 →
      1 ≤ name.length → name.length ≤ 100 →
      tripleTaken s k.id q n = true →
      claimSipara s slug q n name = (s, .slotTaken)) := by
  constructor
  · intro ops
    exact claimsUnique_foldl ops initState List.Pairwise.nil
  · intro s slug q n name k hk h1 hq h2 h3 h4 h5 htaken
    have hp := parseClaimBody_some q n name h1 h2 h3 h4 h5
    unfold claimSipara
    rw [hk, hp]
    simp only
    rw [if_neg (not_lt.mpr hq)]
    have hc : createClaim s ⟨k.id, q, n, jsTrim name⟩ = none := by
      unfold createClaim
      rw [if_pos htaken]
    rw [hc]

/-- Witness for C1: the request sequence register, create, claim,
rival claim reaches a state with unique slots, and on the example
claimed state Fatima's rival claim answers SlotTaken with the state
unchanged. -/
theorem claim_slot_uniqueness_witness :
    ClaimsUnique (runOps [.register "a@b.com" "h", .createK 1 "Test" "test-abcde",
        .claim "test-abcde" 1 5 "Ahmed", .claim "test-abcde" 1 5 "Fatima"]) ∧
    claimSipara exStateClaimed "test-abcde" 1 5 "Fatima" = (exStateClaimed, .slotTaken) :=
  ⟨claim_slot_uniqueness.1 _,
    claim_slot_uniqueness.2 exStateClaimed "test-abcde" 1 5 "Fatima" exKhuwani (by decide)
      (by decide) (by decide) (by decide) (by decide) (by decide) (by decide) (by decide)⟩

theorem claimSipara_success (s : State) (slug : String) (q n : Int) (name : String) (k : Khuwani)
    (hk : getKhuwaniBySlug s slug = some k)
    (h1 : 1 ≤ q) (hq : q ≤ (k.numQurans : Int)) (h2 : 1 ≤ n) (h3 : n ≤ 30)
    (h4 : 1 ≤ name.length) (h5 : name.length ≤ 100)
    (hfree : tripleTaken s k.id q n = false) :
    claimSipara s slug q n name
      = ({ s with claims := ⟨k.id, q, n, jsTrim name⟩ :: s.claims },
         .success ⟨k.id, q, n, jsTrim name⟩) := by
  have hp := parseClaimBody_some q n name h1 h2 h3 h4 h5
  unfold claimSipara
  rw [hk, hp]
  simp only
  rw [if_neg (not_lt.mpr hq)]
  have hc : createClaim s ⟨k.id, q, n, jsTrim name⟩
      = some { s with claims := ⟨k.id, q, n, jsTrim name⟩ :: s.claims } := by
    unfold createClaim
    rw [if_neg (by rw [hfree]; exact Bool.false_ne_true)]
  rw [hc]

theorem sameSlot_symm_not (a b : Claim) (h : ¬ SameSlot a b) : ¬ SameSlot b a :=
  fun hs => h ⟨hs.1.symm, hs.2.1.symm, hs.2.2.symm⟩

theorem tripleTaken_after_release (s : State) (kid : Nat) (q n : Int) (nm : String)
    (hu : ClaimsUnique s)
    (hmem : (⟨kid, q, n, nm⟩ : Claim) ∈ s.claims) :
    (s.claims.filter (fun c => !(claimMatchesAll kid q n nm c))).any
      (claimMatchesSlot kid q n) = false := by
  rw [← Bool.not_eq_true]
  simp only [List.any_eq_true, List.mem_filter, Bool.not_eq_true']
  rintro ⟨c, ⟨hcmem, hnotall⟩, hslot⟩
  simp only [claimMatchesSlot, Bool.and_eq_true, beq_iff_eq] at hslot
  have hsame : SameSlot c ⟨kid, q, n, nm⟩ := ⟨hslot.1.1, hslot.1.2, hslot.2⟩
  by_cases hceq : c = ⟨kid, q, n, nm⟩
  · subst hceq
    simp [claimMatchesAll] at hnotall
  · exact List.Pairwise.forall (fun a b hab => sameSlot_symm_not a b hab) hu hcmem hmem hceq hsame

theorem tripleTaken_after_reset (s : State) (kid : Nat) (q n : Int) :
    (s.claims.filter (fun c => !(c.khuwaniId == kid))).any (claimMatchesSlot kid q n) = false := by
  rw [← Bool.not_eq_true]
  simp only [List.any_eq_true, List.mem_filter, Bool.not_eq_true']
  rintro ⟨c, ⟨-, hne⟩, hslot⟩
  simp only [claimMatchesSlot, Bool.and_eq_true, beq_iff_eq] at hslot
  simp only [beq_eq_false_iff_ne, ne_eq] at hne
  exact hne hslot.1.1

/-- C6: on a session with unique claim slots, once releaseSipara (or an
owner's resetClaims) has removed the claim on a valid slot, a fresh
claimSipara for that slot with any valid participant name succeeds —
the slot goes back to Available and a new claim transitions it to
Claimed again. -/
theorem release_then_reclaim (s : State) (slug : String) (q n : Int) (nameA nameB : String)
    (k : Khuwani) (hu : ClaimsUnique s) (hk : getKhuwaniBySlug s slug = some k)
    (h1 : 1 ≤ q) (hq : q ≤ (k.numQurans : Int)) (h2 : 1 ≤ n) (h3 : n ≤ 30)
    (ha1 : 1 ≤ nameA.length) (ha2 : nameA.length ≤ 100)
    (hb1 : 1 ≤ nameB.length) (hb2 : nameB.length ≤ 100)
    (hmem : (⟨k.id, q, n, jsTrim nameA⟩ : Claim) ∈ s.claims) :
    (releaseSipara s slug q n nameA).2 = .released ∧
    (claimSipara (releaseSipara s slug q n nameA).1 slug q n nameB).2
        = .success ⟨k.id, q, n, jsTrim nameB⟩ ∧
    (getKhuwaniById s k.id = some k →
      (claimSipara (resetClaims s k.organizerId k.id).1 slug q n nameB).2
          = .success ⟨k.id, q, n, jsTrim nameB⟩) := by
  have hpA := parseClaimBody_some q n nameA h1 h2 h3 ha1 ha2
  have hunf := releaseSipara_unfold s slug q n nameA k hk hpA
  have hdel : (deleteClaim s k.id q n (jsTrim nameA)).2 = true := by
    refine List.any_eq_true.mpr ⟨⟨k.id, q, n, jsTrim nameA⟩, hmem, ?_⟩
    simp [claimMatchesAll]
  have hs1 : (releaseSipara s slug q n nameA).1
      = { s with claims :=
            (s.claims.filter (fun c => !(claimMatchesAll k.id q n (jsTrim nameA) c))) } := by
    rw [hunf, if_pos hdel]
    rfl
  refine ⟨by rw [hunf, if_pos hdel], ?_, ?_⟩
  · have hk1 : getKhuwaniBySlug (releaseSipara s slug q n nameA).1 slug = some k := by
      rw [getKhuwaniBySlug_ext _ s slug (by rw [hs1])]
      exact hk
    have hfree1 : tripleTaken (releaseSipara s slug q n nameA).1 k.id q n = false := by
      show (releaseSipara s slug q n nameA).1.claims.any (claimMatchesSlot k.id q n) = false
      rw [hs1]
      exact tripleTaken_after_release s k.id q n (jsTrim nameA) hu hmem
    rw [claimSipara_success _ slug q n nameB k hk1 h1 hq h2 h3 hb1 hb2 hfree1]
  · intro hkid
    have hreset : resetClaims s k.organizerId k.id = (deleteAllClaimsForKhuwani s k.id, .ok) := by
      unfold resetClaims
      rw [hkid]
      simp only
      rw [if_pos (by simp)]
    have hk2 : getKhuwaniBySlug (resetClaims s k.organizerId k.id).1 slug = some k := by
      rw [getKhuwaniBySlug_ext _ s slug (by rw [hreset]; rfl)]
      exact hk
    have hfree2 : tripleTaken (resetClaims s k.organizerId k.id).1 k.id q n = false := by
      show (resetClaims s k.organizerId k.id).1.claims.any (claimMatchesSlot k.id q n) = false
      rw [hreset]
      exact tripleTaken_after_reset s k.id q n
    rw [claimSipara_success _ slug q n nameB k hk2 h1 hq h2 h3 hb1 hb2 hfree2]

/-- Witness for C6: after releasing Ahmed's claim on the example state,
Fatima's claim on the same slot succeeds; likewise after the owner's
reset. -/
theorem release_then_reclaim_witness :
    (releaseSipara exStateClaimed "test-abcde" 1 5 "Ahmed").2 = .released ∧
    (claimSipara (releaseSipara exStateClaimed "test-abcde" 1 5 "Ahmed").1
        "test-abcde" 1 5 "Fatima").2 = .success ⟨1, 1, 5, "Fatima"⟩ ∧
    (claimSipara (resetClaims exStateClaimed 1 1).1 "test-abcde" 1 5 "Fatima").2
        = .success ⟨1, 1, 5, "Fatima"⟩ := by
  have h := release_then_reclaim exStateClaimed "test-abcde" 1 5 "Ahmed" "Fatima" exKhuwani
    (by decide) (by decide) (by decide) (by decide) (by decide) (by decide) (by decide)
    (by decide) (by decide) (by decide) (by decide)
  refine ⟨h.1, ?_, ?_⟩
  · rw [h.2.1]
    decide
  · show (claimSipara (resetClaims exStateClaimed exKhuwani.organizerId exKhuwani.id).1
        "test-abcde" 1 5 "Fatima").2 = .success ⟨1, 1, 5, "Fatima"⟩
    rw [h.2.2 (by decide)]
    decide

/-- C7: with at least one quran instance (the invariant), the rendered
overall percentage equals round(claimedCount / (instanceCount*30) *
100), the participant per-instance percentage equals
round(claimedCount/30*100) over the fixed denominator 30, and an
instance without claims projects to 0%. -/
theorem projection_percentages (numQurans : Nat) (claims : List Claim) (q : Int)
    (h : 1 ≤ numQurans) :
    organizerProgressDisplay numQurans claims
        = jsRound ((claims.length : ℚ) / ((numQurans : ℚ) * 30) * 100) ∧
    participantPercent claims q
        = jsRound ((countClaimsForQuran claims q : ℚ) / 30 * 100) ∧
    (countClaimsForQuran claims q = 0 → participantPercent claims q = 0) := by
  refine ⟨?_, rfl, fun h0 => ?_⟩
  · unfold organizerProgressDisplay organizerProgress
    rw [if_pos (by omega)]
    congr 1
    push_cast
    ring
  · unfold participantPercent
    rw [h0]
    norm_num [jsRound]

/-- Witness for C7, the spec's example: 2 instances with claims on
(1,1), (1,2) and (2,1) give an overall percentage of 5 and an
instance-1 percentage of 7. -/
theorem projection_percentages_witness :
    organizerProgressDisplay 2 exampleClaims = 5 ∧ participantPercent exampleClaims 1 = 7 := by
  have h := projection_percentages 2 exampleClaims 1 (by norm_num)
  constructor
  · rw [h.1]
    rw [show exampleClaims.length = 3 from by decide]
    norm_num [jsRound]
  · rw [h.2.1]
    rw [show countClaimsForQuran exampleClaims 1 = 2 from by decide]
    norm_num [jsRound]

/-- Counterexample for C8: a claim request whose participant name is
the single space " " — an effectively empty name — is NOT rejected:
zod's length checks run before its trim transform, so the request
succeeds and a claim whose stored participant name is the empty string
is persisted. -/
theorem claim_whitespace_name_stored :
    (claimSipara exState "test-abcde" 1 5 " ").2 = .success ⟨1, 1, 5, ""⟩ ∧
    (⟨1, 1, 5, ""⟩ : Claim) ∈ (claimSipara exState "test-abcde" 1 5 " ").1.claims ∧
    ("" : String).length = 0 :=
  ⟨by decide, by decide, rfl⟩

theorem jsTrim_length_le (s : String) : (jsTrim s).length ≤ s.length := by
  show (((s.data.dropWhile isJsWS).reverse.dropWhile isJsWS).reverse).length ≤ s.data.length
  rw [List.length_reverse]
  calc ((s.data.dropWhile isJsWS).reverse.dropWhile isJsWS).length
      ≤ (s.data.dropWhile isJsWS).reverse.length := (List.dropWhile_suffix _).sublist.length_le
    _ = (s.data.dropWhile isJsWS).length := List.length_reverse _
    _ ≤ s.data.length := (List.dropWhile_suffix _).sublist.length_le

/-- C8 amended: a claim request whose participant name is the empty
string (or longer than 100 characters) is rejected with
ValidationFailure before any claim is stored; an accepted name is
persisted trimmed — so a whitespace-only name is stored as the empty
string — and every name persisted by claimSipara has at most 100
characters. -/
theorem claim_name_validation_amended (s : State) (slug : String) (q n : Int) (name : String)
    (k : Khuwani) (hk : getKhuwaniBySlug s slug = some k) :
    ((name.length = 0 ∨ 100 < name.length) →
        claimSipara s slug q n name = (s, .validationFailure)) ∧
    (∀ s2 c, claimSipara s slug q n name = (s2, .success c) →
        c.participantName = jsTrim name ∧ c.participantName.length ≤ 100) := by
  constructor
  · intro hbad
    have hp : parseClaimBody q n name = none := by
      unfold parseClaimBody
      rw [if_neg]
      rintro ⟨-, -, -, h4, h5⟩
      omega
    unfold claimSipara
    rw [hk, hp]
  · intro s2 c hsucc
    unfold claimSipara at hsucc
    rw [hk] at hsucc
    cases hp : parseClaimBody q n name with
    | none =>
      rw [hp] at hsucc
      exact absurd hsucc (by simp)
    | some body =>
      rw [hp] at hsucc
      obtain ⟨⟨-, -, -, -, h5⟩, rfl⟩ := parseClaimBody_some_inv q n name body hp
      simp only at hsucc
      split at hsucc
      · exact absurd hsucc (by simp)
      · split at hsucc
        · exact absurd hsucc (by simp)
        · have hc : ClaimResult.success ⟨k.id, q, n, jsTrim name⟩ = ClaimResult.success c :=
            congrArg Prod.snd hsucc
          injection hc with hc2
          rw [← hc2]
          exact ⟨rfl, le_trans (jsTrim_length_le name) h5⟩

/-- Witness for C8 amended: the empty name is rejected on the example
state, and Ahmed's successful claim stores the trimmed name " Ahmed "
→ "Ahmed" of length at most 100. -/
theorem claim_name_validation_amended_witness :
    claimSipara exState "test-abcde" 1 5 "" = (exState, .validationFailure) ∧
    ("Ahmed" : String) = jsTrim " Ahmed " ∧ ("Ahmed" : String).length ≤ 100 := by
  have h := claim_name_validation_amended exState "test-abcde" 1 5 "" exKhuwani (by decide)
  have h2 := claim_name_validation_amended exState "test-abcde" 1 5 " Ahmed " exKhuwani
    (by decide)
  have hs : claimSipara exState "test-abcde" 1 5 " Ahmed "
      = ((claimSipara exState "test-abcde" 1 5 " Ahmed ").1,
         .success ⟨1, 1, 5, "Ahmed"⟩) := by decide
  have h3 := h2.2 (claimSipara exState "test-abcde" 1 5 " Ahmed ").1 ⟨1, 1, 5, "Ahmed"⟩ hs
  exact ⟨h.1 (Or.inl rfl), h3.1, h3.2⟩

/-- C10: a failed login answers 401 "Invalid email or password"
identically whether the email is unregistered or the email exists and
the password fails the bcrypt comparison — the outcome does not reveal
whether an account exists. -/
theorem login_uniform_failure (validEmail : String → Bool)
    (bcryptCompare : String → String → Bool) (s : State) (email password : String)
    (hp : parseLogin validEmail email password = none) :
    (getOrganizerByEmail s email = none →
      login validEmail bcryptCompare s email password
          = .unauthorized "Invalid email or password") ∧
    (∀ o, getOrganizerByEmail s email = some o → bcryptCompare password o.passwordHash = false →
      login validEmail bcryptCompare s email password
          = .unauthorized "Invalid email or password") := by
  constructor
  · intro h0
    unfold login
    rw [hp, h0]
  · intro o ho hbc
    unfold login
    rw [hp, ho]
    simp only
    rw [if_neg (by rw [hbc]; exact Bool.false_ne_true)]

/-- Witness for C10: with an accepting email check and a rejecting
password check, the unknown-email run (empty database) and the
wrong-password run (database with the account) produce the same
observable outcome. -/
theorem login_uniform_failure_witness :
    login (fun _ => true) (fun _ _ => false) initState "a@b.com" "secret1"
        = .unauthorized "Invalid email or password" ∧
    login (fun _ => true) (fun _ _ => false) exState "a@b.com" "secret1"
        = .unauthorized "Invalid email or password" :=
  ⟨(login_uniform_failure _ _ initState "a@b.com" "secret1" (by decide)).1 (by decide),
    (login_uniform_failure _ _ exState "a@b.com" "secret1" (by decide)).2
      ⟨1, "a@b.com", "h"⟩ (by decide) rfl⟩

theorem collapseRunsAux_cons_pos (p : Char → Bool) (b : Bool) (c : Char) (rest : List Char)
    (h : p c = true) :
    collapseRunsAux p b (c :: rest)
      = if b then collapseRunsAux p true rest else '-' :: collapseRunsAux p true rest := by
  simp [collapseRunsAux, h]

theorem collapseRunsAux_cons_neg (p : Char → Bool) (b : Bool) (c : Char) (rest : List Char)
    (h : p c = false) :
    collapseRunsAux p b (c :: rest) = c :: collapseRunsAux p false rest := by
  simp [collapseRunsAux, h]

theorem collapse_fuse_aux : ∀ (l : List Char) (w b : Bool), (w = true → b = true) →
    collapseRunsAux isHyphen b (collapseRunsAux isJsWS w l)
      = collapseRunsAux isJsWSOrHyphen (w || b) l := by
  intro l
  induction l with
  | nil => intro w b _; rfl
  | cons c rest ih =>
    intro w b hwb
    by_cases hws : isJsWS c = true
    · have hpwh : isJsWSOrHyphen c = true := by simp [isJsWSOrHyphen, hws]
      cases w with
      | true =>
        have hb := hwb rfl
        subst hb
        simp only [Bool.true_or]
        rw [collapseRunsAux_cons_pos _ _ _ _ hws, if_pos rfl,
          collapseRunsAux_cons_pos _ _ _ _ hpwh, if_pos rfl]
        exact ih true true (fun _ => rfl)
      | false =>
        rw [collapseRunsAux_cons_pos _ _ _ _ hws]
        simp only [Bool.false_eq_true, if_false, Bool.false_or]
        rw [collapseRunsAux_cons_pos _ _ _ _ (show isHyphen '-' = true from rfl),
          collapseRunsAux_cons_pos _ _ _ _ hpwh]
        have hrec := ih true true (fun _ => rfl)
        simp only [Bool.true_or] at hrec
        cases b with
        | true => simpa using hrec
        | false => simpa using hrec
    · have hws' : isJsWS c = false := by simpa using hws
      by_cases hhy : isHyphen c = true
      · have hpwh : isJsWSOrHyphen c = true := by simp [isJsWSOrHyphen, isHyphen] at hhy ⊢; simp [hhy]
        rw [collapseRunsAux_cons_neg _ _ _ _ hws',
          collapseRunsAux_cons_pos _ _ _ _ hhy,
          collapseRunsAux_cons_pos _ _ _ _ hpwh]
        have hor : (w || b) = b := by
          cases w with
          | true => simp [hwb rfl]
          | false => simp
        rw [hor]
        have hrec := ih false true (fun _ => rfl)
        simp only [Bool.false_or] at hrec
        cases b with
        | true => simpa using hrec
        | false => simpa using hrec
      · have hhy' : isHyphen c = false := by simpa using hhy
        have hpwh : isJsWSOrHyphen c = false := by
          simp only [isJsWSOrHyphen, isHyphen] at hhy' ⊢
          simp [hws', hhy']
        rw [collapseRunsAux_cons_neg _ _ _ _ hws',
          collapseRunsAux_cons_neg _ _ _ _ hhy',
          collapseRunsAux_cons_neg _ _ _ _ hpwh]
        have hrec := ih false false (fun h => h)
        simp only [Bool.false_or] at hrec
        rw [hrec]

theorem collapse_fuse (l : List Char) :
    collapseRuns isHyphen (collapseRuns isJsWS l) = collapseRuns isJsWSOrHyphen l :=
  collapse_fuse_aux l false false (fun h => h)

theorem goodL_collapseRunsAux : ∀ (l : List Char) (b : Bool),
    GoodL (collapseRunsAux isJsWSOrHyphen b l) ∧
    (b = true → ∀ y ∈ (collapseRunsAux isJsWSOrHyphen b l).head?, y ≠ '-') := by
  intro l
  induction l with
  | nil =>
    intro b
    exact ⟨List.chain'_nil, fun _ y hy => by simp [collapseRunsAux] at hy⟩
  | cons c rest ih =>
    intro b
    by_cases hc : isJsWSOrHyphen c = true
    · cases b with
      | true =>
        rw [collapseRunsAux_cons_pos _ _ _ _ hc, if_pos rfl]
        exact ⟨(ih true).1, fun _ => (ih true).2 rfl⟩
      | false =>
        rw [collapseRunsAux_cons_pos _ _ _ _ hc]
        simp only [Bool.false_eq_true, if_false]
        constructor
        · rw [GoodL, List.chain'_cons']
          refine ⟨fun y hy => ?_, (ih true).1⟩
          have hne := (ih true).2 rfl y hy
          tauto
        · intro hfalse
          exact absurd hfalse (by simp)
    · have hc' : isJsWSOrHyphen c = false := by simpa using hc
      have hcne : c ≠ '-' := by
        intro he
        rw [he] at hc'
        exact absurd hc' (by decide)
      rw [collapseRunsAux_cons_neg _ _ _ _ hc']
      constructor
      · rw [GoodL, List.chain'_cons']
        exact ⟨fun y hy => fun hx => hcne hx.1, (ih false).1⟩
      · intro _ y hy
        simp only [List.head?_cons, Option.mem_def, Option.some.injEq] at hy
        exact hy ▸ hcne


theorem dropOneLeadingHyphen_eq (l : List Char) (h : GoodL l) :
    dropOneLeadingHyphen l = l.dropWhile isHyphen := by
  cases l with
  | nil => rfl
  | cons c rest =>
    by_cases hc : c = '-'
    · subst hc
      simp only [dropOneLeadingHyphen, if_true]
      rw [List.dropWhile_cons, if_pos (by decide)]
      cases rest with
      | nil => rfl
      | cons d t =>
        have hd : d ≠ '-' := by
          rw [GoodL, List.chain'_cons] at h
          intro hd2
          exact h.1 ⟨rfl, hd2⟩
        rw [List.dropWhile_cons, if_neg (by simp [isHyphen, hd])]
    · simp only [dropOneLeadingHyphen]
      rw [if_neg hc, List.dropWhile_cons, if_neg (by simp [isHyphen, hc])]

theorem goodL_reverse (l : List Char) (h : GoodL l) : GoodL l.reverse := by
  rw [GoodL, List.chain'_reverse]
  exact List.Chain'.imp (fun a b hab hx => hab ⟨hx.2, hx.1⟩) h

theorem trimEdgeHyphens_eq (l : List Char) (h : GoodL l) :
    trimEdgeHyphens l = ((l.dropWhile isHyphen).reverse.dropWhile isHyphen).reverse := by
  unfold trimEdgeHyphens
  rw [dropOneLeadingHyphen_eq l h]
  rw [dropOneLeadingHyphen_eq _ (goodL_reverse _ (List.Chain'.suffix h (List.dropWhile_suffix _)))]

/-- Counterexample for C9: on the name "a--b" (an interior hyphen run,
no whitespace) the code collapses the run — its hyphen-run replace acts
on hyphens already present in the name — while the pipeline exactly as
the spec words it leaves "a--b" intact, so the two disagree. -/
theorem generateSlug_claimed_pipeline_counterexample :
    generateSlug "a--b" "x7f2a" = "a-b-x7f2a" ∧
    specSlugClaimed "a--b" "x7f2a" = "a--b-x7f2a" ∧
    generateSlug "a--b" "x7f2a" ≠ specSlugClaimed "a--b" "x7f2a" :=
  ⟨by decide, by decide, by decide⟩

/-- C9 amended: for every name and every value of the random suffix
(the random source treated as an input), generateSlug returns the name
lower-cased, characters outside [a-z0-9 space -] stripped, runs of
whitespace and hyphens collapsed to single hyphens, leading and
trailing hyphens trimmed, followed by a hyphen and the suffix. -/
theorem goodL_collapseRuns (l : List Char) : GoodL (collapseRuns isJsWSOrHyphen l) :=
  (goodL_collapseRunsAux l false).1

theorem generateSlug_matches_amended_spec (name randomSuffix : String) :
    generateSlug name randomSuffix = specSlugAmended name randomSuffix := by
  unfold generateSlug specSlugAmended slugBaseChars
  rw [collapse_fuse]
  rw [trimEdgeHyphens_eq _ (goodL_collapseRuns _)]
